/-
Verification of the geospatial feature-engineering core of the
snowflake_mlops repository, against its natural-language specification.

Shallow embedding notes:
  - DataFrames are lists of row structures; column updates become new rows.
  - The h3 library primitives (cell_to_parent, grid_distance, cell_to_latlng)
    and the geodesic / haversine numeric kernels are external collaborators;
    they enter the embedding as explicit function parameters.
  - Fallible Python computations are embedded in Except String; an uncaught
    Python exception is an Except.error value.
  - Python floats are modelled as rationals; Python round(x, 2) is modelled
    by round2 below (the exact tie-breaking of float rounding is never
    relevant to the properties proved here).
-/
import Mathlib

/-! ## GeoSpatialTools (src/app/utils/geospatial_tools.py) -/

/-- Model of Python round(x, 2): two-decimal rounding of a rational. -/
def round2 (q : ℚ) : ℚ := ((round (q * 100) : ℤ) : ℚ) / 100

/-- A Python loop computing f over a list, aborting at the first uncaught
exception (modelled as Except.error). -/
def mapExcept {α β : Type} (f : α → Except String β) : List α → Except String (List β)
  | [] => Except.ok []
  | a :: as =>
    match f a with
    | Except.error e => Except.error e
    | Except.ok b =>
      match mapExcept f as with
      | Except.error e => Except.error e
      | Except.ok bs => Except.ok (b :: bs)

/-- GeoSpatialTools.hex_distance_from_coordinates.
The per-coordinate loop calling calculate_coord_distance runs OUTSIDE the
try/except, so an error of `dist` propagates; only min + round are guarded,
and min of an empty list (ValueError) is caught and becomes 999999.
`get_h3_center` abstracts h3.cell_to_latlng, `dist` abstracts
geodesic(...).km as a fallible computation. -/
def hex_distance_from_coordinates (get_h3_center : String → ℚ × ℚ)
    (dist : ℚ × ℚ → ℚ × ℚ → Except String ℚ)
    (hex : String) (coor_list : List (ℚ × ℚ)) : Except String ℚ :=
  match mapExcept (fun coordenada => dist (get_h3_center hex) coordenada) coor_list with
  | Except.error e => Except.error e
  | Except.ok [] => Except.ok 999999
  | Except.ok (d :: ds) => Except.ok (round2 (ds.foldl min d))

/-- GeoSpatialTools.hex_distance_from_coordinates_vectorized.
Empty coor_list short-circuits to 999999; otherwise the numpy haversine
computation runs with NO try/except, so any error of `haversine`
propagates. `haversine` abstracts the per-pair haversine_vectorized
kernel as a fallible computation. -/
def hex_distance_from_coordinates_vectorized
    (haversine : ℚ × ℚ → ℚ × ℚ → Except String ℚ)
    (hex_center : ℚ × ℚ) (coor_list : List (ℚ × ℚ)) : Except String ℚ :=
  if coor_list.isEmpty then Except.ok 999999
  else
    match mapExcept (fun c => haversine hex_center c) coor_list with
    | Except.error e => Except.error e
    | Except.ok [] => Except.ok 999999
    | Except.ok (d :: ds) => Except.ok (round2 (ds.foldl min d))

/-- Python min(candidates, key=k): first element attaining the minimal key;
none on an empty list (where Python would raise ValueError). -/
def minByKey (key : String → ℕ) : List String → Option String
  | [] => none
  | x :: xs => some (xs.foldl (fun b a => if key a < key b then a else b) x)

/-- One row of the raw_df input of nearest_hex_8_in_parent: a hex id plus
the `missing` attribute column (none = null). -/
structure NNRow where
  hex_id : String
  missing : Option ℕ
deriving DecidableEq, Repr

/-- One row of the returned dataframe: the copied input columns, the added
parent column h_{par_resolution}, and the added nn_h8_* column (none when
never assigned, i.e. NaN). -/
structure NNOut where
  hex_id : String
  missing : Option ℕ
  parent : String
  nn : Option String
deriving DecidableEq, Repr

/-- The candidate list computed inside the loop of nearest_hex_8_in_parent:
hex ids of rows sharing the parent of `current` whose `missing` is not
null, then with the current hex id itself removed.
`cellToParent` abstracts h3.cell_to_parent. -/
def candidatesOf (cellToParent : String → ℕ → String) (parRes : ℕ)
    (df : List NNRow) (current : NNRow) : List String :=
  ((df.filter (fun s =>
      decide (cellToParent s.hex_id parRes = cellToParent current.hex_id parRes)
        && s.missing.isSome)).map (fun s => s.hex_id)).filter
    (fun h => decide (h ≠ current.hex_id))

/-- The body of the row loop of nearest_hex_8_in_parent for one row: the
nn column is set to the candidate minimizing h3.grid_distance (abstracted
as `gridDistance`) exactly when candidates exist. The loop is run for
EVERY row of df (there is no filter on `missing` being null), and the
in-loop assignments touch only the nn column, which the candidate filter
never reads, so the per-row outcome is a function of the input rows. -/
def nearestRow (cellToParent : String → ℕ → String)
    (gridDistance : String → String → ℕ) (parRes : ℕ)
    (df : List NNRow) (current : NNRow) : NNOut :=
  { hex_id := current.hex_id
    missing := current.missing
    parent := cellToParent current.hex_id parRes
    nn := minByKey (fun h => gridDistance current.hex_id h)
            (candidatesOf cellToParent parRes df current) }

/-- GeoSpatialTools.nearest_hex_8_in_parent, value-level form: the returned
dataframe, one output row per input row. -/
def nearest_hex_8_in_parent (cellToParent : String → ℕ → String)
    (gridDistance : String → String → ℕ) (parRes : ℕ)
    (raw_df : List NNRow) : List NNOut :=
  raw_df.map (nearestRow cellToParent gridDistance parRes raw_df)

/-- The effect of one iteration of the `for idx, row in df.iterrows()`
loop of nearest_hex_8_in_parent on the working dataframe df: candidates
are read from the CURRENT df state, and df.at[idx, nn] updates row idx. -/
def nearestUpdate (gridDistance : String → String → ℕ)
    (df : List NNOut) (idx : ℕ) : List NNOut :=
  match df.get? idx with
  | none => df
  | some row =>
    let candidates :=
      ((df.filter (fun s => decide (s.parent = row.parent) && s.missing.isSome)).map
        (fun s => s.hex_id)).filter (fun h => decide (h ≠ row.hex_id))
    match minByKey (fun h => gridDistance row.hex_id h) candidates with
    | none => df
    | some nearest_hex => df.set idx { row with nn := some nearest_hex }

/-- One iteration of the row loop on the whole state (raw_df, df): the
body reads and writes df only; raw_df is never written. -/
def nearestStep (gridDistance : String → String → ℕ)
    (st : List NNRow × List NNOut) (idx : ℕ) : List NNRow × List NNOut :=
  (st.1, nearestUpdate gridDistance st.2 idx)

/-- GeoSpatialTools.nearest_hex_8_in_parent, state-passing form: the state
carries the caller dataframe raw_df and the working copy df
(df = raw_df.copy() plus the parent column); the loop runs over all row
positions; the final state (raw_df, df) is returned so that effects on
the input can be observed. -/
def nearest_hex_8_in_parent_state (cellToParent : String → ℕ → String)
    (gridDistance : String → String → ℕ) (parRes : ℕ)
    (raw_df : List NNRow) : List NNRow × List NNOut :=
  let df : List NNOut := raw_df.map (fun r =>
    { hex_id := r.hex_id, missing := r.missing,
      parent := cellToParent r.hex_id parRes, nn := none })
  (List.range df.length).foldl (nearestStep gridDistance) (raw_df, df)

/-! ## ExternalFeaturesProcessor (src/app/utils/external_features.py) -/

/-- The fixed, ordered set of binary POI category columns created by
add_poi_binary_flags and summed by aggregate_poi_by_hex. -/
inductive Category where
  | groceries_shop | lux_shop | tech_shop | car_shop | other_shop
  | health | security | financial | leisure | education | cars | negative | sea
deriving DecidableEq, Repr

/-- One raw POI record: the amenity and shop tag columns (none = null). -/
structure POIRecord where
  amenity : Option String
  shop : Option String
deriving DecidableEq, Repr

/-- The attribute state of an ExternalFeaturesProcessor object: the tag
lists assigned by _define_amenity_categories and _define_shop_categories.
financial_amenities is an Option because __init__ never assigns it
(reading it raises AttributeError), though add_poi_binary_flags reads it. -/
structure ExternalFeaturesProcessor where
  health_amenities : List String
  security_amenities : List String
  leisure_amenities : List String
  education_amenities : List String
  car_amenities : List String
  public_amenities : List String
  negative_amenities : List String
  sea_amenities : List String
  groceries_and_food : List String
  lux_shop : List String
  tech_shop : List String
  cars_shop : List String
  other_shop : List String
  financial_amenities : Option (List String)
deriving DecidableEq, Repr

/-- The processor state built by ExternalFeaturesProcessor.__init__ via
_define_amenity_categories and _define_shop_categories. -/
def externalFeaturesProcessor_init : ExternalFeaturesProcessor :=
  { health_amenities := ["doctors", "veterinary"]
    security_amenities := ["police", "fire"]
    leisure_amenities := ["restaurant", "internet_cafe"]
    education_amenities := ["school", "college"]
    car_amenities := ["parking_entrance", "parking", "bus_station"]
    public_amenities := ["shelter", "post_office", "townhall", "marketplace"]
    negative_amenities := ["waste_disposal", "love_hotel", "prison", "gambling",
      "stripclub", "sanitary_dump_station", "casino", "grave_yard"]
    sea_amenities := ["boat_rental", "scuba_diving", "ferry_terminal",
      "boat_storage", "dive_centre"]
    groceries_and_food := ["bakery", "greengrocer", "butcher", "alcohol", "beverages",
      "convenience", "hardware", "department_store", "laundry"]
    lux_shop := ["florist", "gift", "confectionery"]
    tech_shop := ["electronics", "mobile_phone", "beauty", "optician", "shoes"]
    cars_shop := ["car_parts", "tyres"]
    other_shop := ["yes"]
    financial_amenities := none }

/-- pandas Series.isin on a nullable tag column: null is in no list. -/
def memOpt : Option String → List String → Bool
  | none, _ => false
  | some s, l => l.contains s

/-- astype(int) on a boolean column. -/
def boolToInt (b : Bool) : ℕ := if b then 1 else 0

/-- The flag columns computed by add_poi_binary_flags for one record: each
flag is the isin test of the source, in source order; the financial flag
reads the financial_amenities list. -/
def flagsFun (p : ExternalFeaturesProcessor) (financial_amenities : List String)
    (r : POIRecord) : Category → ℕ :=
  fun c =>
    match c with
      | Category.groceries_shop => boolToInt (memOpt r.shop p.groceries_and_food)
      | Category.lux_shop => boolToInt (memOpt r.shop p.lux_shop)
      | Category.tech_shop => boolToInt (memOpt r.shop p.tech_shop)
      | Category.car_shop => boolToInt (memOpt r.shop p.cars_shop)
      | Category.other_shop => boolToInt (memOpt r.shop p.other_shop)
      | Category.health => boolToInt (memOpt r.amenity p.health_amenities)
      | Category.security => boolToInt (memOpt r.amenity p.security_amenities)
      | Category.financial => boolToInt (memOpt r.amenity financial_amenities)
      | Category.leisure => boolToInt (memOpt r.amenity p.leisure_amenities)
      | Category.education => boolToInt (memOpt r.amenity p.education_amenities)
      | Category.cars => boolToInt (memOpt r.amenity p.car_amenities)
      | Category.negative => boolToInt (memOpt r.amenity p.negative_amenities)
      | Category.sea => boolToInt (memOpt r.amenity p.sea_amenities)

/-- ExternalFeaturesProcessor.add_poi_binary_flags for one record. Reading
self.financial_amenities raises AttributeError when the attribute is
absent (which is the state __init__ leaves), aborting the whole call;
otherwise every flag column of flagsFun is produced. -/
def add_poi_binary_flags (p : ExternalFeaturesProcessor) (r : POIRecord) :
    Except String (Category → ℕ) :=
  match p.financial_amenities with
  | none => Except.error ("AttributeError: financial_amenities")
  | some financial_amenities => Except.ok (flagsFun p financial_amenities r)

/-- The poi_columns list of aggregate_poi_by_hex, in source order. -/
def poi_columns : List Category :=
  [Category.groceries_shop, Category.lux_shop, Category.tech_shop,
   Category.car_shop, Category.other_shop,
   Category.health, Category.security, Category.financial, Category.leisure,
   Category.education, Category.cars, Category.negative, Category.sea]

/-- The shop-namespace columns of add_poi_binary_flags, in source order. -/
def shop_columns : List Category :=
  [Category.groceries_shop, Category.lux_shop, Category.tech_shop,
   Category.car_shop, Category.other_shop]

/-- The amenity-namespace columns of add_poi_binary_flags, in source order. -/
def amenity_columns : List Category :=
  [Category.health, Category.security, Category.financial, Category.leisure,
   Category.education, Category.cars, Category.negative, Category.sea]

/-- One row of the input of aggregate_poi_by_hex: a hex id plus the
numeric flag columns. -/
structure PoiRow where
  hex_id : String
  flags : Category → ℕ

/-- One row of the aggregated output: a hex id plus summed counts. -/
@[ext]
structure AggRow where
  hex_id : String
  counts : Category → ℕ

/-- ExternalFeaturesProcessor.aggregate_poi_by_hex: groupby("hex_id") with
sum over each poi column — one output row per distinct hex_id, whose
count for a column is the sum of that column over the rows of the group
(row order of the output is immaterial to the properties proved here). -/
def aggregate_poi_by_hex (points_df : List PoiRow) : List AggRow :=
  ((points_df.map (fun x => x.hex_id)).dedup).map (fun k =>
    { hex_id := k
      counts := fun c =>
        ((points_df.filter (fun x => decide (x.hex_id = k))).map
          (fun x => x.flags c)).sum })

/-- The default high_cost_threshold of classify_points_by_cost_zone. -/
def high_cost_threshold_default : ℚ := 0.5

/-- ExternalFeaturesProcessor.classify_points_by_cost_zone: the distinct
hex ids of training rows with cost_of_living strictly above / at or below
the threshold form the high / low sets; each point row is labelled 1 if
its hex id is in the high set, else 2 if in the low set, else 0. -/
def classify_points_by_cost_zone (points_df : List String)
    (train_df : List (String × ℚ)) (high_cost_threshold : ℚ) :
    List (String × ℕ) :=
  let high_cost_hex :=
    ((train_df.filter (fun t => decide (t.2 > high_cost_threshold))).map
      (fun t => t.1)).dedup
  let low_cost_hex :=
    ((train_df.filter (fun t => decide (t.2 ≤ high_cost_threshold))).map
      (fun t => t.1)).dedup
  points_df.map (fun h =>
    (h, if h ∈ high_cost_hex then 1 else if h ∈ low_cost_hex then 2 else 0))

/-- Boolean disjointness of two tag lists. -/
def disjointTags (l1 l2 : List String) : Bool :=
  l1.all (fun a => !(l2.contains a))

/-- Boolean pairwise disjointness of a family of tag lists. -/
def pairwiseDisjointTags : List (List String) → Bool
  | [] => true
  | l :: ls => ls.all (fun m => disjointTags l m) && pairwiseDisjointTags ls

/-- Projection of a successful add_poi_binary_flags result (zero flags on
error); used only to phrase concrete witnesses. -/
def getOkFlags : Except String (Category → ℕ) → (Category → ℕ)
  | Except.ok f => f
  | Except.error _ => fun _ => 0

/-! ## Helper lemmas -/

/-- If some element of the list makes f fail, mapExcept fails (with the
first error encountered). -/
theorem mapExcept_error_of_mem {α β : Type} (f : α → Except String β) :
    ∀ (l : List α) (c : α) (e : String), c ∈ l → f c = Except.error e →
      ∃ e2, mapExcept f l = Except.error e2 := by
  intro l
  induction l with
  | nil => intro c e hc _; cases hc
  | cons a t ih =>
    intro c e hc hfc
    rcases List.mem_cons.mp hc with h | h
    · subst h
      exact ⟨e, by simp [mapExcept, hfc]⟩
    · cases hfa : f a with
      | error e1 => exact ⟨e1, by simp [mapExcept, hfa]⟩
      | ok b =>
        obtain ⟨e2, he2⟩ := ih c e h hfc
        exact ⟨e2, by simp [mapExcept, hfa, he2]⟩

/-- minByKey yields a value exactly on nonempty lists. -/
theorem minByKey_eq_none_iff (key : String → ℕ) (l : List String) :
    minByKey key l = none ↔ l = [] := by
  cases l <;> simp [minByKey]

/-- A left fold with a strict-improvement step computes the first minimum:
the start element consed to the list splits as a prefix of strictly larger
keys, the result, and a suffix of no smaller keys. -/
theorem foldl_min_first (key : String → ℕ) :
    ∀ (l : List String) (b : String),
      ∃ l1 l2,
        b :: l = l1 ++ (List.foldl (fun x a => if key a < key x then a else x) b l) :: l2 ∧
        (∀ y ∈ l1, key (List.foldl (fun x a => if key a < key x then a else x) b l) < key y) ∧
        (∀ y ∈ l2, key (List.foldl (fun x a => if key a < key x then a else x) b l) ≤ key y) := by
  intro l
  induction l with
  | nil =>
    intro b
    exact ⟨[], [], rfl, by simp, by simp⟩
  | cons a t ih =>
    intro b
    rw [List.foldl_cons]
    by_cases hlt : key a < key b
    · rw [if_pos hlt]
      obtain ⟨l1, l2, hdec, hstrict, hle⟩ := ih a
      cases l1 with
      | nil =>
        rw [List.nil_append] at hdec
        injection hdec with h1 h2
        refine ⟨[b], l2, ?_, ?_, hle⟩
        · rw [← h1, ← h2]; rfl
        · intro y hy
          rcases List.mem_singleton.mp hy with h
          subst h
          rw [← h1]; exact hlt
      | cons x l1t =>
        rw [List.cons_append] at hdec
        injection hdec with h1 h2
        have hma : key (List.foldl (fun x a => if key a < key x then a else x) a t) < key a := by
          have := hstrict x (List.mem_cons_self x l1t)
          rw [← h1] at this; exact this
        refine ⟨b :: a :: l1t, l2, ?_, ?_, hle⟩
        · rw [List.cons_append, List.cons_append, ← h2]
        · intro y hy
          rcases List.mem_cons.mp hy with h | hy2
          · subst h; exact Nat.lt_trans hma hlt
          rcases List.mem_cons.mp hy2 with h | hy3
          · subst h; exact hma
          · exact hstrict y (List.mem_cons_of_mem x hy3)
    · rw [if_neg hlt]
      have hba : key b ≤ key a := Nat.le_of_not_lt hlt
      obtain ⟨l1, l2, hdec, hstrict, hle⟩ := ih b
      cases l1 with
      | nil =>
        rw [List.nil_append] at hdec
        injection hdec with h1 h2
        refine ⟨[], a :: t, ?_, by simp, ?_⟩
        · rw [← h1]; rfl
        · intro y hy
          rcases List.mem_cons.mp hy with h | hy2
          · subst h; rw [← h1]; exact hba
          · exact hle y (h2 ▸ hy2)
      | cons x l1t =>
        rw [List.cons_append] at hdec
        injection hdec with h1 h2
        have hmb : key (List.foldl (fun x a => if key a < key x then a else x) b t) < key b := by
          have := hstrict x (List.mem_cons_self x l1t)
          rw [← h1] at this; exact this
        refine ⟨b :: a :: l1t, l2, ?_, ?_, hle⟩
        · rw [List.cons_append, List.cons_append, ← h2]
        · intro y hy
          rcases List.mem_cons.mp hy with h | hy2
          · subst h; exact hmb
          rcases List.mem_cons.mp hy2 with h | hy3
          · subst h; exact Nat.lt_of_lt_of_le hmb hba
          · exact hstrict y (List.mem_cons_of_mem x hy3)

/-- Specification of minByKey: the selected element splits the list into
a strictly-larger-key prefix and a no-smaller-key suffix (Python min with
key: the first element attaining the minimum). -/
theorem minByKey_spec (key : String → ℕ) (l : List String) (n : String)
    (h : minByKey key l = some n) :
    ∃ l1 l2, l = l1 ++ n :: l2 ∧ (∀ y ∈ l1, key n < key y) ∧
      (∀ y ∈ l2, key n ≤ key y) := by
  cases l with
  | nil => cases h
  | cons x xs =>
    have hn : List.foldl (fun b a => if key a < key b then a else b) x xs = n := by
      simpa [minByKey] using h
    obtain ⟨l1, l2, hdec, hstrict, hle⟩ := foldl_min_first key xs x
    rw [hn] at hdec hstrict hle
    cases l1 with
    | nil =>
      rw [List.nil_append] at hdec
      injection hdec with h1 h2
      exact ⟨[], l2, by rw [List.nil_append, h1, h2], by simp, hle⟩
    | cons z l1t =>
      rw [List.cons_append] at hdec
      injection hdec with h1 h2
      exact ⟨z :: l1t, l2, by rw [List.cons_append, ← h1, ← h2], hstrict, hle⟩

/-- minByKey selects an element of the list. -/
theorem minByKey_mem (key : String → ℕ) (l : List String) (n : String)
    (h : minByKey key l = some n) : n ∈ l := by
  obtain ⟨l1, l2, hdec, _, _⟩ := minByKey_spec key l n h
  rw [hdec]
  exact List.mem_append_right l1 (List.mem_cons_self n l2)

/-- minByKey selects a global minimum of the key. -/
theorem minByKey_le (key : String → ℕ) (l : List String) (n : String)
    (h : minByKey key l = some n) : ∀ y ∈ l, key n ≤ key y := by
  obtain ⟨l1, l2, hdec, hstrict, hle⟩ := minByKey_spec key l n h
  intro y hy
  rw [hdec] at hy
  rcases List.mem_append.mp hy with h1 | h2
  · exact Nat.le_of_lt (hstrict y h1)
  rcases List.mem_cons.mp h2 with h3 | h4
  · subst h3; exact Nat.le_refl _
  · exact hle y h4

/-- Folds over a pair-valued state whose step preserves the first
component preserve the first component. -/
theorem foldl_fst_eq {α β γ : Type} (step : α × β → γ → α × β)
    (hstep : ∀ st i, (step st i).1 = st.1) :
    ∀ (l : List γ) (st : α × β), (l.foldl step st).1 = st.1 := by
  intro l
  induction l with
  | nil => intro st; rfl
  | cons a t ih => intro st; rw [List.foldl_cons, ih, hstep]

/-- Splitting a sum over a list along a boolean predicate. -/
theorem sum_map_filter_add {α : Type} (p : α → Bool) (f : α → ℕ) :
    ∀ l : List α,
      ((l.filter p).map f).sum + ((l.filter (fun x => !(p x))).map f).sum =
        (l.map f).sum := by
  intro l
  induction l with
  | nil => rfl
  | cons a t ih =>
    by_cases hp : p a = true
    · rw [List.filter_cons_of_pos hp, List.filter_cons_of_neg (by simp [hp]),
        List.map_cons, List.sum_cons, List.map_cons, List.sum_cons]
      omega
    · rw [List.filter_cons_of_neg hp, List.filter_cons_of_pos (by simp [Bool.eq_false_iff.mpr hp]),
        List.map_cons, List.sum_cons, List.map_cons, List.sum_cons]
      omega

/-- Summing fiberwise over a duplicate-free list of keys covering every
element recovers the total sum. -/
theorem sum_over_keys {α : Type} (g : α → String) (f : α → ℕ) :
    ∀ (keys : List String), keys.Nodup →
      ∀ (l : List α), (∀ x ∈ l, g x ∈ keys) →
        (keys.map (fun k => ((l.filter (fun x => decide (g x = k))).map f).sum)).sum =
          (l.map f).sum := by
  intro keys
  induction keys with
  | nil =>
    intro _ l hcov
    cases l with
    | nil => rfl
    | cons a t => exact absurd (hcov a (List.mem_cons_self a t)) (List.not_mem_nil _)
  | cons k ks ih =>
    intro hnd l hcov
    have hknot : k ∉ ks := (List.nodup_cons.mp hnd).1
    have hndt : ks.Nodup := (List.nodup_cons.mp hnd).2
    have hfib : ∀ k2 ∈ ks,
        l.filter (fun x => decide (g x = k2)) =
          (l.filter (fun x => !(decide (g x = k)))).filter (fun x => decide (g x = k2)) := by
      intro k2 hk2
      have hk2k : ¬ k2 = k := by
        intro h; rw [h] at hk2; exact hknot hk2
      rw [List.filter_filter]
      apply List.filter_congr
      intro x _
      by_cases hx : g x = k2
      · have hxk : ¬ g x = k := by
          intro hxe
          exact hk2k (hx.symm.trans hxe)
        simp [hx, hxk, hk2k]
      · simp [hx]
    have htail :
        (ks.map (fun k2 => ((l.filter (fun x => decide (g x = k2))).map f).sum)).sum =
          (ks.map (fun k2 =>
            (((l.filter (fun x => !(decide (g x = k)))).filter
              (fun x => decide (g x = k2))).map f).sum)).sum := by
      apply congrArg
      apply List.map_congr_left
      intro k2 hk2
      rw [hfib k2 hk2]
    have hcov2 : ∀ x ∈ l.filter (fun x => !(decide (g x = k))), g x ∈ ks := by
      intro x hx
      have hx2 := List.mem_filter.mp hx
      have hxk : ¬ g x = k := by
        have := hx2.2
        simpa using this
      rcases List.mem_cons.mp (hcov x hx2.1) with h | h
      · exact absurd h hxk
      · exact h
    rw [List.map_cons, List.sum_cons, htail,
      ih hndt (l.filter (fun x => !(decide (g x = k)))) hcov2]
    exact sum_map_filter_add (fun x => decide (g x = k)) f l

/-- The sum of a 0/1-valued column equals the number of rows where it is 1. -/
theorem sum_eq_countP {α : Type} (f : α → ℕ) :
    ∀ l : List α, (∀ x ∈ l, f x = 0 ∨ f x = 1) →
      (l.map f).sum = l.countP (fun x => decide (f x = 1)) := by
  intro l
  induction l with
  | nil => intro _; rfl
  | cons a t ih =>
    intro hbin
    have ha := hbin a (List.mem_cons_self a t)
    have ht := ih (fun x hx => hbin x (List.mem_cons_of_mem a hx))
    rcases ha with h0 | h1
    · rw [List.map_cons, List.sum_cons, List.countP_cons, h0, ht]
      simp
    · rw [List.map_cons, List.sum_cons, List.countP_cons, h1, ht]
      simp [Nat.add_comm]

/-- Number of tag lists of the family containing the tag s, counted with
the 0/1 indicator used by the flag columns. -/
def countMemTag (s : String) (ls : List (List String)) : ℕ :=
  (ls.map (fun l => boolToInt (l.contains s))).sum

/-- A tag contained in no list of the family is counted zero times. -/
theorem countMemTag_eq_zero (s : String) :
    ∀ ls : List (List String), (∀ m ∈ ls, m.contains s = false) →
      countMemTag s ls = 0 := by
  intro ls
  induction ls with
  | nil => intro _; rfl
  | cons l t ih =>
    intro h0
    have hl := h0 l (List.mem_cons_self l t)
    have ht : (t.map (fun m => boolToInt (m.contains s))).sum = 0 :=
      ih (fun m hm => h0 m (List.mem_cons_of_mem l hm))
    simp only [countMemTag, List.map_cons, List.sum_cons, hl]
    rw [show boolToInt false = 0 from rfl, Nat.zero_add]
    exact ht

/-- In a pairwise-disjoint family of tag lists, a tag is contained in at
most one list. -/
theorem countMemTag_le_one (s : String) :
    ∀ ls : List (List String), pairwiseDisjointTags ls = true →
      countMemTag s ls ≤ 1 := by
  intro ls
  induction ls with
  | nil => intro _; exact Nat.zero_le 1
  | cons l t ih =>
    intro hpd
    have hpd2 : t.all (fun m => disjointTags l m) = true ∧ pairwiseDisjointTags t = true := by
      simpa [pairwiseDisjointTags, Bool.and_eq_true] using hpd
    by_cases hc : l.contains s = true
    · have hsl : s ∈ l := by simpa using hc
      have h0 : ∀ m ∈ t, m.contains s = false := by
        intro m hm
        have hd := List.all_eq_true.mp hpd2.1 m hm
        have hnm := List.all_eq_true.mp hd s hsl
        simpa using hnm
      have ht0 : (t.map (fun m => boolToInt (m.contains s))).sum = 0 :=
        countMemTag_eq_zero s t h0
      simp only [countMemTag, List.map_cons, List.sum_cons, hc]
      rw [show boolToInt true = 1 from rfl]
      omega
    · have hc2 : l.contains s = false := Bool.eq_false_iff.mpr hc
      have ht : (t.map (fun m => boolToInt (m.contains s))).sum ≤ 1 := ih hpd2.2
      simp only [countMemTag, List.map_cons, List.sum_cons, hc2]
      rw [show boolToInt false = 0 from rfl]
      omega

/-! ## Claims -/

/-- C1: the claim states that add_poi_binary_flags returns a CategoryFlags
value for every POIRecord as a pure total function that never fails. On
the code it fails for EVERY record: line 227 reads self.financial_amenities,
which __init__ (via _define_amenity_categories) never assigns, so the call
raises AttributeError. Evaluation at a concrete record exhibits the
failure. -/
theorem add_poi_binary_flags_init_fails :
    add_poi_binary_flags externalFeaturesProcessor_init
        { amenity := none, shop := some ("bakery") } =
      Except.error ("AttributeError: financial_amenities") := rfl

/-- C2: with an empty reference coordinate list both the loop
implementation (where min of the empty distance list raises ValueError,
caught and turned into the sentinel) and the vectorized implementation
(explicit empty check) return exactly 999999 and do not raise, for every
origin cell or point and every distance kernel. -/
theorem nearestDistance_empty_returns_sentinel :
    ∀ (get_h3_center : String → ℚ × ℚ)
      (dist haversine : ℚ × ℚ → ℚ × ℚ → Except String ℚ)
      (hex : String) (hex_center : ℚ × ℚ),
      hex_distance_from_coordinates get_h3_center dist hex [] = Except.ok 999999 ∧
      hex_distance_from_coordinates_vectorized haversine hex_center [] = Except.ok 999999 := by
  intro g d hv hx c
  exact ⟨rfl, rfl⟩

/-- A geodesic/haversine kernel that raises on every input, standing for an
unexpected runtime failure during one distance computation. -/
def distFail : ℚ × ℚ → ℚ × ℚ → Except String ℚ := fun _ _ => Except.error ("ValueError")

/-- C3 counterexample: a failure while computing one per-coordinate
geodesic distance in hex_distance_from_coordinates propagates out (the
per-coordinate loop is OUTSIDE the try/except), and a failure inside
hex_distance_from_coordinates_vectorized propagates (no try/except at
all); neither call degrades to the sentinel 999999, refuting the claim at
this concrete input. -/
theorem distance_error_not_caught_cex :
    hex_distance_from_coordinates (fun _ => (0, 0)) distFail ("h") [(0, 0)] =
        Except.error ("ValueError") ∧
      hex_distance_from_coordinates_vectorized distFail (0, 0) [(0, 0)] =
        Except.error ("ValueError") ∧
      ¬ hex_distance_from_coordinates (fun _ => (0, 0)) distFail ("h") [(0, 0)] =
          Except.ok 999999 := by
  refine ⟨rfl, rfl, ?_⟩
  intro h
  exact Except.noConfusion
    (show (Except.error ("ValueError") : Except String ℚ) = Except.ok 999999 from h)

/-- C3 (amended): only the min/rounding step of
hex_distance_from_coordinates is inside the try/except (the empty-list
ValueError degrades to 999999, see C2); a runtime failure while computing
a per-coordinate geodesic distance propagates out of
hex_distance_from_coordinates, and any failure inside
hex_distance_from_coordinates_vectorized propagates as well, instead of
degrading to the sentinel at record granularity. -/
theorem distance_errors_propagate
    (get_h3_center : String → ℚ × ℚ)
    (dist haversine : ℚ × ℚ → ℚ × ℚ → Except String ℚ)
    (hex : String) (hex_center : ℚ × ℚ) (coor_list : List (ℚ × ℚ))
    (c0 : ℚ × ℚ) (e1 e2 : String)
    (hc : c0 ∈ coor_list)
    (hd : dist (get_h3_center hex) c0 = Except.error e1)
    (hh : haversine hex_center c0 = Except.error e2) :
    (∃ e, hex_distance_from_coordinates get_h3_center dist hex coor_list =
      Except.error e) ∧
    (∃ e, hex_distance_from_coordinates_vectorized haversine hex_center coor_list =
      Except.error e) := by
  constructor
  · obtain ⟨e3, he3⟩ := mapExcept_error_of_mem
      (fun coordenada => dist (get_h3_center hex) coordenada) coor_list c0 e1 hc hd
    exact ⟨e3, by unfold hex_distance_from_coordinates; rw [he3]⟩
  · cases coor_list with
    | nil => cases hc
    | cons a t =>
      obtain ⟨e4, he4⟩ := mapExcept_error_of_mem
        (fun c => haversine hex_center c) (a :: t) c0 e2 hc hh
      exact ⟨e4, by simp [hex_distance_from_coordinates_vectorized, he4]⟩

/-- Witness for C3 (amended) at a concrete failing kernel and coordinate
list. -/
theorem distance_errors_propagate_witness :
    ((0 : ℚ), (0 : ℚ)) ∈ [((0 : ℚ), (0 : ℚ))] ∧
      distFail ((fun _ => ((0 : ℚ), (0 : ℚ))) ("h")) (0, 0) = Except.error ("ValueError") ∧
      distFail (0, 0) (0, 0) = Except.error ("ValueError") ∧
      ((∃ e, hex_distance_from_coordinates (fun _ => (0, 0)) distFail ("h") [(0, 0)] =
          Except.error e) ∧
        (∃ e, hex_distance_from_coordinates_vectorized distFail (0, 0) [(0, 0)] =
          Except.error e)) :=
  ⟨List.mem_singleton.mpr rfl, rfl, rfl,
    distance_errors_propagate (fun _ => (0, 0)) distFail distFail ("h") (0, 0)
      [(0, 0)] (0, 0) ("ValueError") ("ValueError")
      (List.mem_singleton.mpr rfl) rfl rfl⟩

/-- C10: nearest_hex_8_in_parent never mutates its input dataframe: the
function works on df = raw_df.copy(), the parent and nn columns are added
to that copy only, every in-loop assignment df.at[idx, nn] targets the
copy, and the raw_df component of the final state equals the input. -/
theorem nearest_hex_8_in_parent_preserves_input
    (cellToParent : String → ℕ → String) (gridDistance : String → String → ℕ)
    (parRes : ℕ) (raw_df : List NNRow) :
    (nearest_hex_8_in_parent_state cellToParent gridDistance parRes raw_df).1 = raw_df := by
  unfold nearest_hex_8_in_parent_state
  exact foldl_fst_eq (nearestStep gridDistance) (fun st i => rfl) _ _

/-- A two-row input dataframe for nearest_hex_8_in_parent in which BOTH
rows have a present (non-null) `missing` attribute. -/
def nnExample : List NNRow :=
  [{ hex_id := ("a"), missing := some 1 }, { hex_id := ("b"), missing := some 2 }]

/-- A three-row input dataframe with all attributes present. -/
def nnExample3 : List NNRow :=
  [{ hex_id := ("a"), missing := some 1 }, { hex_id := ("b"), missing := some 1 },
   { hex_id := ("c"), missing := some 1 }]

/-- The first row of the examples. -/
def nnRowA : NNRow := { hex_id := ("a"), missing := some 1 }

/-- A parent-derivation function putting every cell under one parent. -/
def ctpConst : String → ℕ → String := fun _ _ => ("p")

/-- A degenerate grid distance. -/
def gdZero : String → String → ℕ := fun _ _ => 0

/-- A grid distance making cell c the unique closest target. -/
def gdC : String → String → ℕ := fun _ h => if h = ("c") then 0 else 5

/-- C4 counterexample: the row loop of nearest_hex_8_in_parent has no
filter on `missing` being null, so the cell "a", whose attribute IS
present (missing = some 1), still receives the imputed neighbor "b" —
refuting "exactly to those input cells whose attribute is absent" and "a
cell whose attribute is present receives no imputed neighbor". -/
theorem nearest_hex_assigns_to_present_attribute_cex :
    (nearest_hex_8_in_parent ctpConst gdZero 1 nnExample).get? 0 =
      some { hex_id := ("a"), missing := some 1, parent := ("p"), nn := some ("b") } := by
  rfl

/-- C4 (amended): nearest_hex_8_in_parent assigns an imputed neighbor to a
cell — whether its attribute is absent or present — exactly when its
candidate list (rows sharing its parent with non-null attribute, the cell
itself excluded by hex id) is nonempty; in particular a missing cell with
no valid candidates is left absent, and no input ever raises. -/
theorem nearest_hex_assignment_iff_candidates
    (cellToParent : String → ℕ → String) (gridDistance : String → String → ℕ)
    (parRes : ℕ) (raw_df : List NNRow) (r : NNRow) (hr : r ∈ raw_df) :
    ((nearestRow cellToParent gridDistance parRes raw_df r).nn ≠ none ↔
      candidatesOf cellToParent parRes raw_df r ≠ []) ∧
    nearest_hex_8_in_parent cellToParent gridDistance parRes raw_df =
      raw_df.map (nearestRow cellToParent gridDistance parRes raw_df) := by
  refine ⟨⟨?_, ?_⟩, rfl⟩
  · intro hnn hc
    apply hnn
    show minByKey (fun h => gridDistance r.hex_id h)
      (candidatesOf cellToParent parRes raw_df r) = none
    rw [hc]
    rfl
  · intro hc hnn
    have hm : minByKey (fun h => gridDistance r.hex_id h)
        (candidatesOf cellToParent parRes raw_df r) = none := hnn
    exact hc ((minByKey_eq_none_iff _ _).mp hm)

/-- Witness for C4 (amended) at a concrete input. -/
theorem nearest_hex_assignment_iff_candidates_witness :
    nnRowA ∈ nnExample ∧
      (((nearestRow ctpConst gdZero 1 nnExample nnRowA).nn ≠ none ↔
          candidatesOf ctpConst 1 nnExample nnRowA ≠ []) ∧
        nearest_hex_8_in_parent ctpConst gdZero 1 nnExample =
          nnExample.map (nearestRow ctpConst gdZero 1 nnExample)) :=
  ⟨by decide,
    nearest_hex_assignment_iff_candidates ctpConst gdZero 1 nnExample nnRowA (by decide)⟩

/-- C8: whenever nearest_hex_8_in_parent assigns an imputed neighbor n to
a row r, then n is the hex id of an input row with a non-null attribute
sharing the parent of r, n is never the hex id of r itself, n minimizes
the grid distance from r over the whole candidate list, and n is the
FIRST candidate attaining the minimum in the stable iteration order of
the input (the candidates split into a strictly-farther prefix, n, and a
no-closer suffix). -/
theorem nearest_hex_nn_minimizes
    (cellToParent : String → ℕ → String) (gridDistance : String → String → ℕ)
    (parRes : ℕ) (raw_df : List NNRow) (r : NNRow) (n : String)
    (hr : r ∈ raw_df)
    (hn : (nearestRow cellToParent gridDistance parRes raw_df r).nn = some n) :
    (∃ s ∈ raw_df, s.hex_id = n ∧ s.missing.isSome = true ∧
      cellToParent s.hex_id parRes = cellToParent r.hex_id parRes) ∧
    n ≠ r.hex_id ∧
    (∀ h ∈ candidatesOf cellToParent parRes raw_df r,
      gridDistance r.hex_id n ≤ gridDistance r.hex_id h) ∧
    (∃ l1 l2, candidatesOf cellToParent parRes raw_df r = l1 ++ n :: l2 ∧
      ∀ y ∈ l1, gridDistance r.hex_id n < gridDistance r.hex_id y) := by
  have hm : minByKey (fun h => gridDistance r.hex_id h)
      (candidatesOf cellToParent parRes raw_df r) = some n := hn
  have hmem := minByKey_mem _ _ _ hm
  unfold candidatesOf at hmem
  have hmem2 := List.mem_filter.mp hmem
  have hne : n ≠ r.hex_id := of_decide_eq_true hmem2.2
  obtain ⟨s, hs, hshex⟩ := List.mem_map.mp hmem2.1
  have hs2 := List.mem_filter.mp hs
  have hs3 := hs2.2
  rw [Bool.and_eq_true] at hs3
  refine ⟨⟨s, hs2.1, hshex, hs3.2, of_decide_eq_true hs3.1⟩, hne,
    minByKey_le _ _ _ hm, ?_⟩
  obtain ⟨l1, l2, hdec, hstrict, _⟩ := minByKey_spec _ _ _ hm
  exact ⟨l1, l2, hdec, hstrict⟩

/-- Witness for C8 at a concrete input where the nearest candidate is not
the first one. -/
theorem nearest_hex_nn_minimizes_witness :
    nnRowA ∈ nnExample3 ∧
      (nearestRow ctpConst gdC 1 nnExample3 nnRowA).nn = some ("c") ∧
      ((∃ s ∈ nnExample3, s.hex_id = ("c") ∧ s.missing.isSome = true ∧
          ctpConst s.hex_id 1 = ctpConst nnRowA.hex_id 1) ∧
        ("c") ≠ nnRowA.hex_id ∧
        (∀ h ∈ candidatesOf ctpConst 1 nnExample3 nnRowA,
          gdC nnRowA.hex_id ("c") ≤ gdC nnRowA.hex_id h) ∧
        (∃ l1 l2, candidatesOf ctpConst 1 nnExample3 nnRowA = l1 ++ ("c") :: l2 ∧
          ∀ y ∈ l1, gdC nnRowA.hex_id ("c") < gdC nnRowA.hex_id y)) :=
  ⟨by decide, by decide,
    nearest_hex_nn_minimizes ctpConst gdC 1 nnExample3 nnRowA ("c")
      (by decide) (by decide)⟩

/-- C5: classify_points_by_cost_zone labels a record 1 (HIGH) exactly when
its hex id occurs in some training row with cost_of_living strictly above
the threshold, else 2 (LOW) when it occurs in some training row at or
below the threshold, else 0 (UNKNOWN); a hex id occurring in both
partitions is labelled 1, and with empty training data every record is
labelled 0. -/
theorem classify_points_by_cost_zone_spec
    (points_df : List String) (train_df : List (String × ℚ)) (thr : ℚ) :
    (classify_points_by_cost_zone points_df train_df thr =
      points_df.map (fun h =>
        (h, if ∃ t ∈ train_df, t.1 = h ∧ t.2 > thr then 1
            else if ∃ t ∈ train_df, t.1 = h ∧ t.2 ≤ thr then 2 else 0))) ∧
    classify_points_by_cost_zone points_df [] thr =
      points_df.map (fun h => (h, 0)) := by
  constructor
  · show points_df.map (fun h =>
        (h, if h ∈ ((train_df.filter (fun t => decide (t.2 > thr))).map (fun t => t.1)).dedup
            then 1
            else if h ∈ ((train_df.filter (fun t => decide (t.2 ≤ thr))).map (fun t => t.1)).dedup
            then 2 else 0)) = _
    apply List.map_congr_left
    intro h _
    have hhigh :
        (h ∈ ((train_df.filter (fun t => decide (t.2 > thr))).map (fun t => t.1)).dedup) ↔
          (∃ t ∈ train_df, t.1 = h ∧ t.2 > thr) := by
      rw [List.mem_dedup]
      constructor
      · intro hm
        obtain ⟨t, ht, hth⟩ := List.mem_map.mp hm
        have ht2 := List.mem_filter.mp ht
        exact ⟨t, ht2.1, hth, of_decide_eq_true ht2.2⟩
      · rintro ⟨t, ht, hth, htv⟩
        exact List.mem_map.mpr ⟨t, List.mem_filter.mpr ⟨ht, decide_eq_true htv⟩, hth⟩
    have hlow :
        (h ∈ ((train_df.filter (fun t => decide (t.2 ≤ thr))).map (fun t => t.1)).dedup) ↔
          (∃ t ∈ train_df, t.1 = h ∧ t.2 ≤ thr) := by
      rw [List.mem_dedup]
      constructor
      · intro hm
        obtain ⟨t, ht, hth⟩ := List.mem_map.mp hm
        have ht2 := List.mem_filter.mp ht
        exact ⟨t, ht2.1, hth, of_decide_eq_true ht2.2⟩
      · rintro ⟨t, ht, hth, htv⟩
        exact List.mem_map.mpr ⟨t, List.mem_filter.mpr ⟨ht, decide_eq_true htv⟩, hth⟩
    exact congrArg (Prod.mk h) (if_congr hhigh rfl (if_congr hlow rfl rfl))
  · simp [classify_points_by_cost_zone]

/-- C6: aggregate_poi_by_hex is order independent: permuting the input
rows permutes the output rows (so the output is unchanged as a set of
(hex id, per-category counts) rows). -/
theorem aggregate_poi_by_hex_order_independent
    (l l2 : List PoiRow) (hperm : l.Perm l2) :
    (aggregate_poi_by_hex l).Perm (aggregate_poi_by_hex l2) := by
  unfold aggregate_poi_by_hex
  have hfun :
      (fun k => AggRow.mk k (fun c =>
        ((l.filter (fun x => decide (x.hex_id = k))).map (fun x => x.flags c)).sum)) =
      (fun k => AggRow.mk k (fun c =>
        ((l2.filter (fun x => decide (x.hex_id = k))).map (fun x => x.flags c)).sum)) := by
    funext k
    have hc : (fun c =>
        ((l.filter (fun x => decide (x.hex_id = k))).map (fun x => x.flags c)).sum) =
        (fun c =>
        ((l2.filter (fun x => decide (x.hex_id = k))).map (fun x => x.flags c)).sum) := by
      funext c
      exact ((hperm.filter (fun x => decide (x.hex_id = k))).map (fun x => x.flags c)).sum_eq
    rw [hc]
  rw [hfun]
  exact ((hperm.map (fun x => x.hex_id)).dedup).map _

/-- A concrete aggregation row (all flags 1) for the witnesses. -/
def poiRowA : PoiRow := { hex_id := ("a"), flags := fun _ => 1 }

/-- A second concrete aggregation row (all flags 1). -/
def poiRowB : PoiRow := { hex_id := ("b"), flags := fun _ => 1 }

/-- Witness for C6 at a concrete two-row table and its transposition. -/
theorem aggregate_poi_by_hex_order_independent_witness :
    ([poiRowA, poiRowB].Perm [poiRowB, poiRowA]) ∧
      (aggregate_poi_by_hex [poiRowA, poiRowB]).Perm
        (aggregate_poi_by_hex [poiRowB, poiRowA]) :=
  ⟨List.Perm.swap poiRowB poiRowA [],
    aggregate_poi_by_hex_order_independent _ _ (List.Perm.swap poiRowB poiRowA [])⟩

/-- C7: for every category column, summing that category over all rows of
the aggregated output equals the number of input records whose binary flag
for that category is 1 (the records satisfying the category predicate),
whenever the flag columns are 0/1-valued as add_poi_binary_flags produces
them. -/
theorem aggregate_poi_by_hex_count_conservation
    (points_df : List PoiRow)
    (hbin : ∀ x ∈ points_df, ∀ c, x.flags c = 0 ∨ x.flags c = 1) (c : Category) :
    ((aggregate_poi_by_hex points_df).map (fun row => row.counts c)).sum =
      points_df.countP (fun x => decide (x.flags c = 1)) := by
  unfold aggregate_poi_by_hex
  rw [List.map_map]
  show (((points_df.map (fun x => x.hex_id)).dedup).map
      (fun k => ((points_df.filter (fun x => decide (x.hex_id = k))).map
        (fun x => x.flags c)).sum)).sum = _
  have hcov : ∀ x ∈ points_df,
      (fun x => x.hex_id) x ∈ (points_df.map (fun x => x.hex_id)).dedup :=
    fun x hx => List.mem_dedup.mpr (List.mem_map_of_mem _ hx)
  rw [sum_over_keys (fun x => x.hex_id) (fun x => x.flags c)
    ((points_df.map (fun x => x.hex_id)).dedup) (List.nodup_dedup _) points_df hcov]
  exact sum_eq_countP (fun x => x.flags c) points_df (fun x hx => hbin x hx c)

/-- Witness for C7 at a concrete two-row table and the health column. -/
theorem aggregate_poi_by_hex_count_conservation_witness :
    (∀ x ∈ [poiRowA, poiRowB], ∀ c, x.flags c = 0 ∨ x.flags c = 1) ∧
      ((aggregate_poi_by_hex [poiRowA, poiRowB]).map
          (fun row => row.counts Category.health)).sum =
        [poiRowA, poiRowB].countP (fun x => decide (x.flags Category.health = 1)) := by
  have hbin : ∀ x ∈ [poiRowA, poiRowB], ∀ c, x.flags c = 0 ∨ x.flags c = 1 := by
    intro x hx c
    rcases List.mem_cons.mp hx with h | hx2
    · subst h; exact Or.inr rfl
    rcases List.mem_cons.mp hx2 with h | hx3
    · subst h; exact Or.inr rfl
    · cases hx3
  exact ⟨hbin, aggregate_poi_by_hex_count_conservation _ hbin Category.health⟩

/-- add_poi_binary_flags on a processor whose financial_amenities
attribute exists returns the flag columns of flagsFun. -/
theorem add_poi_binary_flags_ok (p : ExternalFeaturesProcessor)
    (financial : List String) (r : POIRecord)
    (hfin : p.financial_amenities = some financial) :
    add_poi_binary_flags p r = Except.ok (flagsFun p financial r) := by
  unfold add_poi_binary_flags
  rw [hfin]

/-- The shop-namespace flag columns sum to the number of configured shop
tag lists containing the shop tag (zero for a null tag). -/
theorem flagsFun_shop_sum (p : ExternalFeaturesProcessor)
    (financial : List String) (r : POIRecord) :
    (shop_columns.map (flagsFun p financial r)).sum =
      match r.shop with
      | none => 0
      | some s => countMemTag s [p.groceries_and_food, p.lux_shop, p.tech_shop,
          p.cars_shop, p.other_shop] := by
  obtain ⟨ra, rs⟩ := r
  cases rs <;> rfl

/-- The amenity-namespace flag columns sum to the number of configured
amenity tag lists (financial included) containing the amenity tag. -/
theorem flagsFun_amenity_sum (p : ExternalFeaturesProcessor)
    (financial : List String) (r : POIRecord) :
    (amenity_columns.map (flagsFun p financial r)).sum =
      match r.amenity with
      | none => 0
      | some s => countMemTag s [p.health_amenities, p.security_amenities, financial,
          p.leisure_amenities, p.education_amenities, p.car_amenities,
          p.negative_amenities, p.sea_amenities] := by
  obtain ⟨ra, rs⟩ := r
  cases ra <;> rfl

/-- C9: whenever the flag computation succeeds — which requires a processor
state carrying a financial_amenities list — and the configured tag lists
are pairwise disjoint within each namespace, a record gets at most one
true shop-namespace flag and at most one true amenity-namespace flag, so
at most two true flags over all poi columns; moreover the tag lists the
constructor actually configures ARE pairwise disjoint within each
namespace. -/
theorem add_poi_binary_flags_at_most_two
    (p : ExternalFeaturesProcessor) (financial : List String) (r : POIRecord)
    (f : Category → ℕ)
    (hfin : p.financial_amenities = some financial)
    (hshop : pairwiseDisjointTags [p.groceries_and_food, p.lux_shop, p.tech_shop,
        p.cars_shop, p.other_shop] = true)
    (hamen : pairwiseDisjointTags [p.health_amenities, p.security_amenities, financial,
        p.leisure_amenities, p.education_amenities, p.car_amenities,
        p.negative_amenities, p.sea_amenities] = true)
    (hok : add_poi_binary_flags p r = Except.ok f) :
    ((shop_columns.map f).sum ≤ 1 ∧ (amenity_columns.map f).sum ≤ 1 ∧
        (poi_columns.map f).sum ≤ 2) ∧
      pairwiseDisjointTags [externalFeaturesProcessor_init.groceries_and_food,
        externalFeaturesProcessor_init.lux_shop,
        externalFeaturesProcessor_init.tech_shop,
        externalFeaturesProcessor_init.cars_shop,
        externalFeaturesProcessor_init.other_shop] = true ∧
      pairwiseDisjointTags [externalFeaturesProcessor_init.health_amenities,
        externalFeaturesProcessor_init.security_amenities,
        externalFeaturesProcessor_init.leisure_amenities,
        externalFeaturesProcessor_init.education_amenities,
        externalFeaturesProcessor_init.car_amenities,
        externalFeaturesProcessor_init.negative_amenities,
        externalFeaturesProcessor_init.sea_amenities] = true := by
  rw [add_poi_binary_flags_ok p financial r hfin] at hok
  injection hok with hf
  have h1 : (shop_columns.map f).sum ≤ 1 := by
    rw [← hf, flagsFun_shop_sum]
    cases r.shop with
    | none => exact Nat.zero_le 1
    | some s => exact countMemTag_le_one s _ hshop
  have h2 : (amenity_columns.map f).sum ≤ 1 := by
    rw [← hf, flagsFun_amenity_sum]
    cases r.amenity with
    | none => exact Nat.zero_le 1
    | some s => exact countMemTag_le_one s _ hamen
  have h3 : (poi_columns.map f).sum ≤ 2 := by
    have hsplit : (poi_columns.map f).sum =
        (shop_columns.map f).sum + (amenity_columns.map f).sum := by
      rw [show poi_columns = shop_columns ++ amenity_columns from rfl,
        List.map_append, List.sum_append]
    omega
  exact ⟨⟨h1, h2, h3⟩, by decide, by decide⟩

/-- A processor state equal to the constructor state except that the
financial_amenities attribute exists (so classification can succeed). -/
def processorWithFinancial : ExternalFeaturesProcessor :=
  { externalFeaturesProcessor_init with financial_amenities := some [("bank")] }

/-- A record carrying both an amenity tag and a shop tag. -/
def poiRecordExample : POIRecord :=
  { amenity := some ("police"), shop := some ("bakery") }

/-- Witness for C9 at a concrete processor, record and flag result. -/
theorem add_poi_binary_flags_at_most_two_witness :
    processorWithFinancial.financial_amenities = some [("bank")] ∧
      pairwiseDisjointTags [processorWithFinancial.groceries_and_food,
        processorWithFinancial.lux_shop, processorWithFinancial.tech_shop,
        processorWithFinancial.cars_shop, processorWithFinancial.other_shop] = true ∧
      pairwiseDisjointTags [processorWithFinancial.health_amenities,
        processorWithFinancial.security_amenities, [("bank")],
        processorWithFinancial.leisure_amenities,
        processorWithFinancial.education_amenities,
        processorWithFinancial.car_amenities,
        processorWithFinancial.negative_amenities,
        processorWithFinancial.sea_amenities] = true ∧
      add_poi_binary_flags processorWithFinancial poiRecordExample =
        Except.ok (getOkFlags (add_poi_binary_flags processorWithFinancial poiRecordExample)) ∧
      (((shop_columns.map
            (getOkFlags (add_poi_binary_flags processorWithFinancial poiRecordExample))).sum ≤ 1 ∧
          (amenity_columns.map
            (getOkFlags (add_poi_binary_flags processorWithFinancial poiRecordExample))).sum ≤ 1 ∧
          (poi_columns.map
            (getOkFlags (add_poi_binary_flags processorWithFinancial poiRecordExample))).sum ≤ 2) ∧
        pairwiseDisjointTags [externalFeaturesProcessor_init.groceries_and_food,
          externalFeaturesProcessor_init.lux_shop,
          externalFeaturesProcessor_init.tech_shop,
          externalFeaturesProcessor_init.cars_shop,
          externalFeaturesProcessor_init.other_shop] = true ∧
        pairwiseDisjointTags [externalFeaturesProcessor_init.health_amenities,
          externalFeaturesProcessor_init.security_amenities,
          externalFeaturesProcessor_init.leisure_amenities,
          externalFeaturesProcessor_init.education_amenities,
          externalFeaturesProcessor_init.car_amenities,
          externalFeaturesProcessor_init.negative_amenities,
          externalFeaturesProcessor_init.sea_amenities] = true) :=
  ⟨rfl, by decide, by decide, rfl,
    add_poi_binary_flags_at_most_two processorWithFinancial [("bank")]
      poiRecordExample
      (getOkFlags (add_poi_binary_flags processorWithFinancial poiRecordExample))
      rfl (by decide) (by decide) rfl⟩
